import Mathlib

/-!
Shallow embedding of the request-authentication gate of the
Commvault MCP server (`src/auth/auth_service.py`), together with proofs of
the specification's claims about it.

Modelling conventions:
* Python `float` timestamps are modelled as rationals (`ℚ`); all the
  arithmetic the gate performs on them (`min`, `+`, powers of two scaled by
  `0.5`, comparisons) is exact on the values that occur.
* The per-process failure map `_failed_attempts : {client_ip: (attempt_count,
  next_allowed_time)}` is modelled as an association list
  `List (String × Nat × ℚ)` with Python-dict update semantics (replace the
  existing binding, otherwise append).
* Python strings are Lean `String`s; the string primitives the code uses
  (`str.split(sep)`, `str.strip()`, `str.startswith`) are modelled
  explicitly over `List Char` with CPython semantics.
* `ipaddress.ip_address` acceptance is modelled for dotted-quad IPv4
  (decimal octets 0–255, no leading zeros) and RFC 4291 IPv6 text forms
  (hex groups, one `::`, optional trailing embedded IPv4); zone suffixes
  are omitted.
* `keyring` reads are modelled as an abstract `SecretStore` record of
  `Option String` values; the HTTP request is the record of the fields the
  gate reads (peer address, `X-Forwarded-For`, `Authorization`).
* `hmac.compare_digest` on two strings returns whether they are equal; the
  model uses string equality for its result (its timing behaviour is not
  representable here).
* `time.time()` is read twice on the failure path (once at the top of
  `is_client_token_valid`, once inside `_record_failed_attempt`), so the
  model takes two clock parameters `tCheck` and `tRecord`.
-/

/-- Characters CPython's `str.strip()` removes, restricted to the whitespace
that can occur here. -/
def pyIsSpace (c : Char) : Bool :=
  c == ' ' || c == '\t' || c == '\n' || c == '\r' || c == '\x0b' || c == '\x0c'

/-- Model of Python `s.strip()` on the character list of `s`. -/
def pyStrip (cs : List Char) : List Char :=
  ((cs.dropWhile pyIsSpace).reverse.dropWhile pyIsSpace).reverse

/-- Model of Python `s.split(sep)` for a one-character separator: splitting
the empty string yields `[[]]`, and adjacent separators yield empty fields,
exactly as in CPython. -/
def pySplit (sep : Char) : List Char → List (List Char)
  | [] => [[]]
  | c :: rest =>
    let r := pySplit sep rest
    if c == sep then
      [] :: r
    else
      match r with
      | [] => [[c]]
      | g :: gs => (c :: g) :: gs

/-- Numeric value of a list of decimal digit characters. -/
def digitsVal (cs : List Char) : Nat :=
  cs.foldl (fun a c => a * 10 + (c.toNat - '0'.toNat)) 0

/-- Model of CPython's IPv4 octet rule in `ipaddress.ip_address`: one to
three decimal digits, value at most 255, no leading zero unless the octet
is exactly `0`. -/
def isValidOctet (cs : List Char) : Bool :=
  !cs.isEmpty && cs.all Char.isDigit &&
    (cs.length == 1 || cs.headD '0' != '0') && digitsVal cs ≤ 255

/-- Model of `ipaddress.IPv4Address` acceptance: exactly four valid octets
separated by dots. -/
def isValidIPv4Chars (cs : List Char) : Bool :=
  let parts := pySplit '.' cs
  parts.length == 4 && parts.all isValidOctet

/-- One IPv6 hextet: one to four hexadecimal digits. -/
def isHexGroup (cs : List Char) : Bool :=
  !cs.isEmpty && cs.length ≤ 4 &&
    cs.all (fun c => c.isDigit || ('a' ≤ c && c ≤ 'f') || ('A' ≤ c && c ≤ 'F'))

/-- Splits a character list at the first occurrence of `::`, when present. -/
def splitDoubleColon : List Char → Option (List Char × List Char)
  | ':' :: ':' :: rest => some ([], rest)
  | c :: rest => (splitDoubleColon rest).map (fun p => (c :: p.1, p.2))
  | [] => none

/-- Number of hextet slots a trailing part stands for, with a trailing
embedded IPv4 quad counting as two, and whether all parts are well formed. -/
def ipv6TailOk (rparts : List (List Char)) : Bool × Nat :=
  match rparts.getLast? with
  | none => (true, 0)
  | some last =>
    if isValidIPv4Chars last then
      (rparts.dropLast.all isHexGroup, rparts.length + 1)
    else
      (rparts.all isHexGroup, rparts.length)

/-- Model of `ipaddress.IPv6Address` acceptance (zone suffixes omitted):
without `::` the address has exactly eight hextets, or seven parts ending
in an embedded IPv4 quad; with one `::` the sides are well-formed hextet
lists (the right side may end in an IPv4 quad) standing for at most seven
slots in total. -/
def isValidIPv6Chars (cs : List Char) : Bool :=
  match splitDoubleColon cs with
  | none =>
    let parts := pySplit ':' cs
    (parts.length == 8 && parts.all isHexGroup) ||
      (parts.length == 7 && (parts.take 6).all isHexGroup &&
        isValidIPv4Chars (parts.getLastD []))
  | some (l, r) =>
    let lparts := if l.isEmpty then [] else pySplit ':' l
    let rparts := if r.isEmpty then [] else pySplit ':' r
    let tail := ipv6TailOk rparts
    lparts.all isHexGroup && tail.1 && lparts.length + tail.2 ≤ 7

/-- Embedding of `AuthService._is_valid_ip`: strip the string and test
whether `ipaddress.ip_address` accepts it. -/
def is_valid_ip (s : String) : Bool :=
  let cs := pyStrip s.toList
  isValidIPv4Chars cs || isValidIPv6Chars cs

/-- Model of Python `h.startswith(pre)`. -/
def pyStartsWith (pre h : String) : Bool :=
  pre.toList.isPrefixOf h.toList

/-- The fields of the inbound HTTP request that `is_client_token_valid`
reads: the transport peer address (`request.client.host`, absent when there
is no client), and the `X-Forwarded-For` and `Authorization` headers. -/
structure Request where
  peerIP : Option String
  xForwardedFor : Option String
  authorization : Option String
deriving Repr, DecidableEq

/-- The keyring entries the gate reads: `server_secret` and
`server_secret_expiry`, each possibly absent. -/
structure SecretStore where
  serverSecret : Option String
  serverSecretExpiry : Option String
deriving Repr, DecidableEq

/-- Per-client failure state: `{client_ip: (attempt_count, next_allowed_time)}`
as an association list with dict update semantics. -/
abbrev FailedAttempts := List (String × Nat × ℚ)

/-- Dict lookup `d[ip]` / `ip in d` on the failure map. -/
def lookupAttempt (fa : FailedAttempts) (ip : String) : Option (Nat × ℚ) :=
  match fa with
  | [] => none
  | (k, v) :: rest => if k = ip then some v else lookupAttempt rest ip

/-- Dict assignment `d[ip] = v`: replace the existing binding, otherwise
append a new one. -/
def setAttempt (fa : FailedAttempts) (ip : String) (v : Nat × ℚ) : FailedAttempts :=
  match fa with
  | [] => [(ip, v)]
  | (k, w) :: rest =>
    if k = ip then (k, v) :: rest else (k, w) :: setAttempt rest ip v

/-- The exponential-backoff delay `min(0.5 * (2 ** attempt_count), 60.0)`
of `_record_failed_attempt`. -/
def backoffDelay (attemptCount : Nat) : ℚ :=
  min ((1 / 2 : ℚ) * 2 ^ attemptCount) 60

/-- Embedding of `AuthService._record_failed_attempt`: increment the stored
attempt count (starting at 1), and set the next allowed time to the current
clock plus the capped exponential-backoff delay. -/
def record_failed_attempt (fa : FailedAttempts) (ip : String) (now : ℚ) :
    FailedAttempts :=
  let attemptCount :=
    match lookupAttempt fa ip with
    | some (c, _) => c + 1
    | none => 1
  setAttempt fa ip (attemptCount, now + backoffDelay attemptCount)

/-- Embedding of `AuthService._reset_failed_attempts`: delete the client's
record when one exists, and do nothing otherwise. -/
def reset_failed_attempts (fa : FailedAttempts) (ip : String) : FailedAttempts :=
  if (lookupAttempt fa ip).isSome then
    fa.filter (fun p => decide (p.1 ≠ ip))
  else
    fa

/-- Embedding of `AuthService._get_client_ip` (the trusted-proxy set is the
already-built value of `_get_trusted_proxy_ips`): honour the first
comma-separated `X-Forwarded-For` token only when the direct peer is a
trusted proxy and the token is a valid IP, falling back to the direct peer
address otherwise.  Python's truthiness tests on `direct_ip` and on the
header value are modelled explicitly. -/
def get_client_ip (trustedProxies : List String) (req : Request) :
    Option String :=
  let directIP := req.peerIP
  let isBehindTrustedProxy :=
    match directIP with
    | some d => !(d == "") && trustedProxies.contains d
    | none => false
  if isBehindTrustedProxy then
    match req.xForwardedFor with
    | some fwd =>
      if fwd = "" then
        directIP
      else
        let clientIP : String := ⟨pyStrip ((pySplit ',' fwd.toList).getD 0 [])⟩
        if is_valid_ip clientIP then some clientIP else directIP
    | none => directIP
  else
    directIP

/-- Model of CPython `float(s)` on the plain decimal literals the setup
script stores as `server_secret_expiry` (optional sign, digits, optional
fractional part); exponent, `inf` and `nan` forms do not occur and are
rejected. -/
def pyFloat? (s : String) : Option ℚ :=
  let cs := pyStrip s.toList
  let signed : Bool × List Char :=
    match cs with
    | '+' :: rest => (false, rest)
    | '-' :: rest => (true, rest)
    | _ => (false, cs)
  let intPart := signed.2.takeWhile Char.isDigit
  let rest := signed.2.dropWhile Char.isDigit
  let magnitude : Option ℚ :=
    match rest with
    | [] =>
      if intPart.isEmpty then none
      else some (digitsVal intPart : ℚ)
    | '.' :: frac =>
      if frac.all Char.isDigit && !(intPart.isEmpty && frac.isEmpty) then
        some ((digitsVal intPart : ℚ) + (digitsVal frac : ℚ) / 10 ^ frac.length)
      else none
    | _ => none
  magnitude.map (fun v => if signed.1 then -v else v)

/-- Extraction of the presented credential from the `Authorization` header:
`auth_header.split(" ")[1] if auth_header.startswith("Bearer ") else
auth_header`. -/
def extract_token (h : String) : String :=
  if pyStartsWith "Bearer " h then
    ⟨(pySplit ' ' h.toList).getD 1 []⟩
  else
    h

/-- The outcome of `is_client_token_valid`: the returned pair together with
the failure map the call leaves behind. -/
structure AuthOutcome where
  allowed : Bool
  reason : Option String
  failures : FailedAttempts
deriving DecidableEq

/-- Embedding of `AuthService.is_client_token_valid`, parametrised by the
trusted-proxy set, the keyring contents, the request, the failure map the
call starts from, and the two `time.time()` readings (`tCheck` at the top
of the function, `tRecord` inside `_record_failed_attempt`). -/
def is_client_token_valid (trustedProxies : List String) (store : SecretStore)
    (req : Request) (fa : FailedAttempts) (tCheck tRecord : ℚ) : AuthOutcome :=
  match get_client_ip trustedProxies req with
  | none =>
    ⟨false, some "Unable to determine client IP address. Request rejected.", fa⟩
  | some clientIP =>
    let throttled : Bool :=
      match lookupAttempt fa clientIP with
      | some (_, nextAllowedTime) => decide (tCheck < nextAllowedTime)
      | none => false
    if throttled then
      ⟨false, some "Too many attempts. Please try again later.", fa⟩
    else
      match req.authorization with
      | none => ⟨false, some "Missing token in request.", fa⟩
      | some authHeader =>
        let mcpClientToken := extract_token authHeader
        match store.serverSecret with
        | none =>
          ⟨false, some "Server secrets missing. Please check server configuration.", fa⟩
        | some secret =>
          match store.serverSecretExpiry with
          | none =>
            ⟨false, some "Server secret expiry is not set. Please rerun the setup script to configure the server secret with an expiration date.", fa⟩
          | some expiryStr =>
            match pyFloat? expiryStr with
            | none =>
              ⟨false, some "Server secret expiry has an invalid format. Please rerun the setup script to regenerate the server secret.", fa⟩
            | some expiryTimestamp =>
              if tCheck > expiryTimestamp then
                ⟨false, some "Server secret has expired. Please regenerate the server secret using the setup script.", fa⟩
              else if mcpClientToken = secret then
                ⟨true, none, reset_failed_attempts fa clientIP⟩
              else
                ⟨false, some "Invalid token.",
                  record_failed_attempt fa clientIP tRecord⟩

/-- Attempt count currently stored for `ip` (`0` when no record exists). -/
def countOf (fa : FailedAttempts) (ip : String) : Nat :=
  match lookupAttempt fa ip with
  | some (c, _) => c
  | none => 0

/-- Consecutive `_record_failed_attempt` calls for one client, given the
clock value each call observes. -/
def recordFailures (fa : FailedAttempts) (ip : String) (ts : List ℚ) :
    FailedAttempts :=
  ts.foldl (fun s t => record_failed_attempt s ip t) fa

/-- The sequence of `next_allowed_time` values stored for `ip` after each
call of a consecutive run of `_record_failed_attempt`s. -/
def nextTimes (fa : FailedAttempts) (ip : String) : List ℚ → List ℚ
  | [] => []
  | t :: ts =>
    let fa' := record_failed_attempt fa ip t
    (match lookupAttempt fa' ip with
     | some (_, next) => [next]
     | none => []) ++ nextTimes fa' ip ts

lemma lookupAttempt_setAttempt_self (fa : FailedAttempts) (ip : String)
    (v : Nat × ℚ) : lookupAttempt (setAttempt fa ip v) ip = some v := by
  induction fa with
  | nil => simp [setAttempt, lookupAttempt]
  | cons p rest ih =>
    obtain ⟨k, w⟩ := p
    by_cases hk : k = ip
    · simp [setAttempt, hk, lookupAttempt]
    · simp [setAttempt, hk, lookupAttempt, ih]

lemma lookupAttempt_setAttempt_ne (fa : FailedAttempts) (ip j : String)
    (v : Nat × ℚ) (hj : j ≠ ip) :
    lookupAttempt (setAttempt fa ip v) j = lookupAttempt fa j := by
  induction fa with
  | nil => simp [setAttempt, lookupAttempt, Ne.symm hj]
  | cons p rest ih =>
    obtain ⟨k, w⟩ := p
    by_cases hk : k = ip
    · subst hk
      simp [setAttempt, lookupAttempt, Ne.symm hj]
    · simp [setAttempt, hk, lookupAttempt, ih]

lemma lookupAttempt_record_self (fa : FailedAttempts) (ip : String) (now : ℚ) :
    lookupAttempt (record_failed_attempt fa ip now) ip =
      some (countOf fa ip + 1, now + backoffDelay (countOf fa ip + 1)) := by
  unfold record_failed_attempt countOf
  cases h : lookupAttempt fa ip with
  | none => simp [h, lookupAttempt_setAttempt_self]
  | some cv =>
    obtain ⟨c, prev⟩ := cv
    simp [h, lookupAttempt_setAttempt_self]

lemma lookupAttempt_record_ne (fa : FailedAttempts) (ip j : String) (now : ℚ)
    (hj : j ≠ ip) :
    lookupAttempt (record_failed_attempt fa ip now) j = lookupAttempt fa j := by
  unfold record_failed_attempt
  cases h : lookupAttempt fa ip with
  | none => simp [h, lookupAttempt_setAttempt_ne _ _ _ _ hj]
  | some cv => obtain ⟨c, prev⟩ := cv; simp [h, lookupAttempt_setAttempt_ne _ _ _ _ hj]

lemma countOf_record (fa : FailedAttempts) (ip : String) (now : ℚ) :
    countOf (record_failed_attempt fa ip now) ip = countOf fa ip + 1 := by
  have h := lookupAttempt_record_self fa ip now
  simp [countOf, h]

lemma lookupAttempt_filter_self (fa : FailedAttempts) (ip : String) :
    lookupAttempt (fa.filter (fun p => decide (p.1 ≠ ip))) ip = none := by
  induction fa with
  | nil => rfl
  | cons p rest ih =>
    obtain ⟨k, w⟩ := p
    rw [List.filter_cons]
    by_cases hk : k = ip
    · rw [if_neg (by simp [hk])]
      exact ih
    · rw [if_pos (by simp [hk])]
      simp only [lookupAttempt]
      rw [if_neg hk]
      exact ih

lemma lookupAttempt_filter_ne (fa : FailedAttempts) (ip j : String)
    (hj : j ≠ ip) :
    lookupAttempt (fa.filter (fun p => decide (p.1 ≠ ip))) j =
      lookupAttempt fa j := by
  induction fa with
  | nil => rfl
  | cons p rest ih =>
    obtain ⟨k, w⟩ := p
    rw [List.filter_cons]
    by_cases hk : k = ip
    · rw [if_neg (by simp [hk]), ih]
      simp only [lookupAttempt]
      rw [if_neg (by rw [hk]; exact Ne.symm hj)]
    · rw [if_pos (by simp [hk])]
      simp only [lookupAttempt]
      rw [ih]

lemma lookupAttempt_reset_self (fa : FailedAttempts) (ip : String) :
    lookupAttempt (reset_failed_attempts fa ip) ip = none := by
  unfold reset_failed_attempts
  by_cases h : (lookupAttempt fa ip).isSome
  · rw [if_pos h]
    exact lookupAttempt_filter_self fa ip
  · rw [if_neg h]
    exact Option.not_isSome_iff_eq_none.mp h

lemma reset_of_lookup_none (fa : FailedAttempts) (ip : String)
    (h : lookupAttempt fa ip = none) : reset_failed_attempts fa ip = fa := by
  unfold reset_failed_attempts
  simp [h]

lemma backoffDelay_mono (c : Nat) : backoffDelay c ≤ backoffDelay (c + 1) := by
  unfold backoffDelay
  refine min_le_min ?_ le_rfl
  have h2 : (2 : ℚ) ^ c ≤ 2 ^ (c + 1) :=
    pow_le_pow_right₀ (by norm_num) (Nat.le_succ c)
  exact mul_le_mul_of_nonneg_left h2 (by norm_num)

lemma backoffDelay_one : backoffDelay 1 = 1 := by
  unfold backoffDelay
  norm_num

lemma lookupAttempt_reset_ne (fa : FailedAttempts) (ip j : String)
    (hj : j ≠ ip) :
    lookupAttempt (reset_failed_attempts fa ip) j = lookupAttempt fa j := by
  unfold reset_failed_attempts
  by_cases h : (lookupAttempt fa ip).isSome
  · rw [if_pos h]
    exact lookupAttempt_filter_ne fa ip j hj
  · rw [if_neg h]

lemma nextTimes_cons (fa : FailedAttempts) (ip : String) (t : ℚ)
    (ts : List ℚ) :
    nextTimes fa ip (t :: ts) =
      (t + backoffDelay (countOf fa ip + 1)) ::
        nextTimes (record_failed_attempt fa ip t) ip ts := by
  simp only [nextTimes]
  rw [lookupAttempt_record_self]
  rfl

lemma pySplit_ne_nil (sep : Char) (cs : List Char) : pySplit sep cs ≠ [] := by
  induction cs with
  | nil => simp [pySplit]
  | cons c rest ih =>
    simp only [pySplit]
    cases hc : c == sep with
    | true => simp
    | false =>
      cases hr : pySplit sep rest with
      | nil => exact absurd hr ih
      | cons g gs => simp

lemma pySplit_getD_zero (sep : Char) (cs : List Char) :
    (pySplit sep cs).getD 0 [] = cs.takeWhile (fun c => !(c == sep)) := by
  induction cs with
  | nil => rfl
  | cons c rest ih =>
    simp only [pySplit]
    cases hc : c == sep with
    | true => simp [List.takeWhile_cons, hc]
    | false =>
      cases hr : pySplit sep rest with
      | nil => exact absurd hr (pySplit_ne_nil sep rest)
      | cons g gs =>
        rw [hr] at ih
        simp [List.takeWhile_cons, hc]
        simpa using ih

lemma pySplit_sep_append (sep : Char) (xs ys : List Char)
    (hxs : xs.all (fun c => !(c == sep)) = true) :
    pySplit sep (xs ++ sep :: ys) = xs :: pySplit sep ys := by
  induction xs with
  | nil =>
    simp only [List.nil_append, pySplit]
    simp
  | cons x xs ih =>
    simp only [List.all_cons, Bool.and_eq_true] at hxs
    simp only [List.cons_append, pySplit, List.append_eq]
    rw [ih hxs.2]
    have hx : (x == sep) = false := by
      cases h : x == sep
      · rfl
      · exact absurd h (by simpa using hxs.1)
    simp [hx]

lemma recordFailures_append_single (fa : FailedAttempts) (ip : String)
    (ts : List ℚ) (t : ℚ) :
    recordFailures fa ip (ts ++ [t]) =
      record_failed_attempt (recordFailures fa ip ts) ip t := by
  simp [recordFailures, List.foldl_append]

lemma countOf_recordFailures (fa : FailedAttempts) (ip : String)
    (ts : List ℚ) :
    countOf (recordFailures fa ip ts) ip = countOf fa ip + ts.length := by
  induction ts generalizing fa with
  | nil => simp [recordFailures]
  | cons t ts ih =>
    simp only [recordFailures, List.foldl_cons]
    have h := ih (record_failed_attempt fa ip t)
    simp only [recordFailures] at h
    rw [h, countOf_record, List.length_cons]
    omega

/-- C1: while a failure record for the resolved client IP is active
(`tCheck < nextAllowedTime`), `is_client_token_valid` returns the throttle
denial and leaves the failure map untouched — for every secret store `st`
and every request content, so the stored secret is never read or compared
and the outcome is the same even when the presented credential equals the
current secret. -/
theorem throttled_denies_without_secret_evaluation
    (tp : List String) (st : SecretStore) (req : Request) (fa : FailedAttempts)
    (tCheck tRecord : ℚ) (ip : String) (c : Nat) (next : ℚ)
    (hip : get_client_ip tp req = some ip)
    (hrec : lookupAttempt fa ip = some (c, next))
    (hth : tCheck < next) :
    is_client_token_valid tp st req fa tCheck tRecord =
      ⟨false, some "Too many attempts. Please try again later.", fa⟩ := by
  unfold is_client_token_valid
  rw [hip]
  simp only [hrec]
  rw [if_pos (decide_eq_true hth)]

/-- Witness for C1 at a concrete throttled input whose presented credential
equals the stored secret. -/
theorem throttled_denies_without_secret_evaluation_witness :
    is_client_token_valid [] ⟨some "s3cret", some "9999999999"⟩
      ⟨some "9.9.9.9", none, some "Bearer s3cret"⟩
      [("9.9.9.9", (2, 100))] 50 50 =
      ⟨false, some "Too many attempts. Please try again later.",
        [("9.9.9.9", (2, 100))]⟩ :=
  throttled_denies_without_secret_evaluation [] _ _ _ 50 50 "9.9.9.9" 2 100
    (by decide) (by decide) (by norm_num)

/-- C2: `_record_failed_attempt` creates a record with count 1 when none
exists and otherwise increments the count, setting the next-allowed time to
`now + min(0.5 * 2^count, 60)`; consequently after the Nth consecutive
failure starting from no record the stored next-allowed time exceeds the
clock of the Nth call by exactly `min(0.5 * 2^N, 60)` seconds. -/
theorem record_failure_backoff_spec (fa : FailedAttempts) (ip : String)
    (now : ℚ) :
    (lookupAttempt fa ip = none →
      lookupAttempt (record_failed_attempt fa ip now) ip =
        some (1, now + min ((1 / 2 : ℚ) * 2 ^ 1) 60)) ∧
    (∀ c prev, lookupAttempt fa ip = some (c, prev) →
      lookupAttempt (record_failed_attempt fa ip now) ip =
        some (c + 1, now + min ((1 / 2 : ℚ) * 2 ^ (c + 1)) 60)) ∧
    (∀ (ts : List ℚ) (t : ℚ), lookupAttempt fa ip = none →
      lookupAttempt (recordFailures fa ip (ts ++ [t])) ip =
        some (ts.length + 1, t + min ((1 / 2 : ℚ) * 2 ^ (ts.length + 1)) 60)) := by
  refine ⟨?_, ?_, ?_⟩
  · intro h
    have hc : countOf fa ip = 0 := by simp [countOf, h]
    rw [lookupAttempt_record_self, hc]
    rfl
  · intro c prev h
    have hc : countOf fa ip = c := by simp [countOf, h]
    rw [lookupAttempt_record_self, hc]
    rfl
  · intro ts t h
    have hc : countOf fa ip = 0 := by simp [countOf, h]
    rw [recordFailures_append_single, lookupAttempt_record_self,
      countOf_recordFailures, hc]
    simp [backoffDelay]

/-- Witness for C2: the first failure of a fresh client at clock 100 stores
count 1 and next-allowed time `100 + min(0.5 * 2^1, 60)`. -/
theorem record_failure_backoff_spec_witness :
    lookupAttempt (record_failed_attempt [] "1.2.3.4" 100) "1.2.3.4" =
      some (1, 100 + min ((1 / 2 : ℚ) * 2 ^ 1) 60) :=
  (record_failure_backoff_spec [] "1.2.3.4" 100).1 rfl

/-- C3: the effective client IP is the direct peer address whenever the
peer is not a trusted proxy or no `X-Forwarded-For` header is present; when
the peer is a trusted proxy and the header is present, the first
comma-separated token, stripped of whitespace, is used when it is a
syntactically valid IP address and the direct peer address is used
otherwise.  The hypothesis `d ≠ ""` reflects that a transport peer address
is never the empty string (the code tests `direct_ip` for truthiness, and
the trusted-proxy set built by `_get_trusted_proxy_ips` contains only valid
IP strings, never the empty string). -/
theorem client_ip_resolution (tp : List String) (req : Request) (d : String)
    (hd : req.peerIP = some d) (hne : d ≠ "") :
    ((tp.contains d = false ∨ req.xForwardedFor = none) →
      get_client_ip tp req = some d) ∧
    (∀ f, tp.contains d = true → req.xForwardedFor = some f →
      get_client_ip tp req =
        (if is_valid_ip ⟨pyStrip ((pySplit ',' f.toList).getD 0 [])⟩ then
          some ⟨pyStrip ((pySplit ',' f.toList).getD 0 [])⟩
        else
          some d)) := by
  constructor
  · intro hcase
    unfold get_client_ip
    rw [hd]
    rcases hcase with hc | hx
    · rw [if_neg (by dsimp only; rw [hc]; simp)]
    · rw [hx]
      by_cases hb : (!(d == "") && tp.contains d) = true
      · rw [if_pos hb]
      · rw [if_neg hb]
  · intro f hc hx
    unfold get_client_ip
    rw [hd, hx]
    rw [if_pos (by dsimp only; rw [hc]; simp [hne])]
    dsimp only
    by_cases hf : f = ""
    · subst hf
      rw [if_pos rfl, if_neg (by decide)]
    · rw [if_neg hf]

/-- Witness for C3 at the specification's end-to-end scenario: trusted
proxy 10.0.0.1 forwards `X-Forwarded-For: 203.0.113.5, 10.0.0.1`. -/
theorem client_ip_resolution_witness :
    get_client_ip ["10.0.0.1"]
        ⟨some "10.0.0.1", some "203.0.113.5, 10.0.0.1", none⟩ =
      some "203.0.113.5" :=
  ((client_ip_resolution ["10.0.0.1"] _ "10.0.0.1" rfl (by decide)).2
      "203.0.113.5, 10.0.0.1" (by decide) rfl).trans (by decide)

/-- Counterexample to C4 as stated: for the header value `"Bearer a b"` the
code's credential is `"a"` (the second space-separated token,
`auth_header.split(" ")[1]`), not everything after the 7-character
`"Bearer "` prefix, which is `"a b"`. -/
theorem extract_token_counterexample :
    pyStartsWith "Bearer " "Bearer a b" = true ∧
    extract_token "Bearer a b" = "a" ∧
    (⟨"Bearer a b".toList.drop 7⟩ : String) = "a b" ∧
    ("a" : String) ≠ "a b" := by decide

/-- C4 (amended): when the header starts with `"Bearer "`, the credential
is the second space-separated field — the remainder after the prefix
truncated at its first space — which coincides with the whole remainder
exactly when the remainder contains no further space; otherwise the whole
header value is the credential. -/
theorem extract_token_second_space_field (h : String) :
    (pyStartsWith "Bearer " h = false → extract_token h = h) ∧
    (∀ rest : List Char, h.toList = "Bearer ".toList ++ rest →
      extract_token h = ⟨rest.takeWhile (fun c => !(c == ' '))⟩) := by
  constructor
  · intro hs
    unfold extract_token
    rw [hs]
    simp
  · intro rest hrest
    have hs : pyStartsWith "Bearer " h = true := by
      unfold pyStartsWith
      rw [hrest]
      exact List.isPrefixOf_iff_prefix.mpr (List.prefix_append _ _)
    unfold extract_token
    rw [if_pos hs]
    have h2 : h.toList = "Bearer".toList ++ ' ' :: rest := by
      rw [hrest]
      rfl
    rw [h2, pySplit_sep_append ' ' _ rest (by decide)]
    simp only [List.getD_cons_succ]
    rw [pySplit_getD_zero]

/-- Witness for C4 (amended): an ordinary spaceless bearer token is
recovered whole, and a non-Bearer header is used verbatim. -/
theorem extract_token_second_space_field_witness :
    extract_token "Bearer tok123" = "tok123" ∧
    extract_token "rawvalue" = "rawvalue" :=
  ⟨((extract_token_second_space_field "Bearer tok123").2 "tok123".toList
      (by decide)).trans (by decide),
    (extract_token_second_space_field "rawvalue").1 (by decide)⟩

/-- Exhaustive case split on `is_client_token_valid`: either the call is a
denial that leaves the failure map untouched, or it reaches the credential
comparison, allowing (and resetting) on a match and denying (and recording
a failure) on a mismatch. -/
lemma auth_outcome_cases (tp : List String) (st : SecretStore) (req : Request)
    (fa : FailedAttempts) (tCheck tRecord : ℚ) :
    ((is_client_token_valid tp st req fa tCheck tRecord).allowed = false ∧
      (is_client_token_valid tp st req fa tCheck tRecord).failures = fa) ∨
    (∃ ip ah secret es q,
      get_client_ip tp req = some ip ∧
      req.authorization = some ah ∧
      st.serverSecret = some secret ∧
      st.serverSecretExpiry = some es ∧
      pyFloat? es = some q ∧ ¬tCheck > q ∧
      ((extract_token ah = secret ∧
          is_client_token_valid tp st req fa tCheck tRecord =
            ⟨true, none, reset_failed_attempts fa ip⟩) ∨
        (extract_token ah ≠ secret ∧
          is_client_token_valid tp st req fa tCheck tRecord =
            ⟨false, some "Invalid token.",
              record_failed_attempt fa ip tRecord⟩))) := by
  unfold is_client_token_valid
  cases hip : get_client_ip tp req with
  | none => exact Or.inl ⟨rfl, rfl⟩
  | some ip =>
    dsimp only
    have cont : ∀ thr : Bool, thr = false →
        ((if thr = true then
            (⟨false, some "Too many attempts. Please try again later.", fa⟩ :
              AuthOutcome)
          else
            match req.authorization with
            | none => ⟨false, some "Missing token in request.", fa⟩
            | some authHeader =>
              match st.serverSecret with
              | none =>
                ⟨false,
                  some "Server secrets missing. Please check server configuration.",
                  fa⟩
              | some secret =>
                match st.serverSecretExpiry with
                | none =>
                  ⟨false,
                    some "Server secret expiry is not set. Please rerun the setup script to configure the server secret with an expiration date.",
                    fa⟩
                | some expiryStr =>
                  match pyFloat? expiryStr with
                  | none =>
                    ⟨false,
                      some "Server secret expiry has an invalid format. Please rerun the setup script to regenerate the server secret.",
                      fa⟩
                  | some expiryTimestamp =>
                    if tCheck > expiryTimestamp then
                      ⟨false,
                        some "Server secret has expired. Please regenerate the server secret using the setup script.",
                        fa⟩
                    else if extract_token authHeader = secret then
                      ⟨true, none, reset_failed_attempts fa ip⟩
                    else
                      ⟨false, some "Invalid token.",
                        record_failed_attempt fa ip tRecord⟩).allowed = false ∧
          (if thr = true then
            (⟨false, some "Too many attempts. Please try again later.", fa⟩ :
              AuthOutcome)
          else
            match req.authorization with
            | none => ⟨false, some "Missing token in request.", fa⟩
            | some authHeader =>
              match st.serverSecret with
              | none =>
                ⟨false,
                  some "Server secrets missing. Please check server configuration.",
                  fa⟩
              | some secret =>
                match st.serverSecretExpiry with
                | none =>
                  ⟨false,
                    some "Server secret expiry is not set. Please rerun the setup script to configure the server secret with an expiration date.",
                    fa⟩
                | some expiryStr =>
                  match pyFloat? expiryStr with
                  | none =>
                    ⟨false,
                      some "Server secret expiry has an invalid format. Please rerun the setup script to regenerate the server secret.",
                      fa⟩
                  | some expiryTimestamp =>
                    if tCheck > expiryTimestamp then
                      ⟨false,
                        some "Server secret has expired. Please regenerate the server secret using the setup script.",
                        fa⟩
                    else if extract_token authHeader = secret then
                      ⟨true, none, reset_failed_attempts fa ip⟩
                    else
                      ⟨false, some "Invalid token.",
                        record_failed_attempt fa ip tRecord⟩).failures = fa) ∨
        (∃ ah secret es q,
          req.authorization = some ah ∧
          st.serverSecret = some secret ∧
          st.serverSecretExpiry = some es ∧
          pyFloat? es = some q ∧ ¬tCheck > q ∧
          ((extract_token ah = secret ∧
              (if thr = true then
                (⟨false, some "Too many attempts. Please try again later.",
                  fa⟩ : AuthOutcome)
              else
                match req.authorization with
                | none => ⟨false, some "Missing token in request.", fa⟩
                | some authHeader =>
                  match st.serverSecret with
                  | none =>
                    ⟨false,
                      some "Server secrets missing. Please check server configuration.",
                      fa⟩
                  | some secret =>
                    match st.serverSecretExpiry with
                    | none =>
                      ⟨false,
                        some "Server secret expiry is not set. Please rerun the setup script to configure the server secret with an expiration date.",
                        fa⟩
                    | some expiryStr =>
                      match pyFloat? expiryStr with
                      | none =>
                        ⟨false,
                          some "Server secret expiry has an invalid format. Please rerun the setup script to regenerate the server secret.",
                          fa⟩
                      | some expiryTimestamp =>
                        if tCheck > expiryTimestamp then
                          ⟨false,
                            some "Server secret has expired. Please regenerate the server secret using the setup script.",
                            fa⟩
                        else if extract_token authHeader = secret then
                          ⟨true, none, reset_failed_attempts fa ip⟩
                        else
                          ⟨false, some "Invalid token.",
                            record_failed_attempt fa ip tRecord⟩) =
                ⟨true, none, reset_failed_attempts fa ip⟩) ∨
            (extract_token ah ≠ secret ∧
              (if thr = true then
                (⟨false, some "Too many attempts. Please try again later.",
                  fa⟩ : AuthOutcome)
              else
                match req.authorization with
                | none => ⟨false, some "Missing token in request.", fa⟩
                | some authHeader =>
                  match st.serverSecret with
                  | none =>
                    ⟨false,
                      some "Server secrets missing. Please check server configuration.",
                      fa⟩
                  | some secret =>
                    match st.serverSecretExpiry with
                    | none =>
                      ⟨false,
                        some "Server secret expiry is not set. Please rerun the setup script to configure the server secret with an expiration date.",
                        fa⟩
                    | some expiryStr =>
                      match pyFloat? expiryStr with
                      | none =>
                        ⟨false,
                          some "Server secret expiry has an invalid format. Please rerun the setup script to regenerate the server secret.",
                          fa⟩
                      | some expiryTimestamp =>
                        if tCheck > expiryTimestamp then
                          ⟨false,
                            some "Server secret has expired. Please regenerate the server secret using the setup script.",
                            fa⟩
                        else if extract_token authHeader = secret then
                          ⟨true, none, reset_failed_attempts fa ip⟩
                        else
                          ⟨false, some "Invalid token.",
                            record_failed_attempt fa ip tRecord⟩) =
                ⟨false, some "Invalid token.",
                  record_failed_attempt fa ip tRecord⟩))) := by
      intro thr hthr
      subst hthr
      rw [if_neg Bool.false_ne_true]
      cases hauth : req.authorization with
      | none => exact Or.inl ⟨rfl, rfl⟩
      | some ah =>
        dsimp only
        cases hsec : st.serverSecret with
        | none => exact Or.inl ⟨rfl, rfl⟩
        | some secret =>
          dsimp only
          cases hexp : st.serverSecretExpiry with
          | none => exact Or.inl ⟨rfl, rfl⟩
          | some es =>
            dsimp only
            cases hpf : pyFloat? es with
            | none => exact Or.inl ⟨rfl, rfl⟩
            | some q =>
              dsimp only
              by_cases hgt : tCheck > q
              · rw [if_pos hgt]
                exact Or.inl ⟨rfl, rfl⟩
              · rw [if_neg hgt]
                by_cases heqt : extract_token ah = secret
                · rw [if_pos heqt]
                  exact Or.inr ⟨ah, secret, es, q, rfl, rfl, rfl, hpf, hgt,
                    Or.inl ⟨heqt, rfl⟩⟩
                · rw [if_neg heqt]
                  exact Or.inr ⟨ah, secret, es, q, rfl, rfl, rfl, hpf, hgt,
                    Or.inr ⟨heqt, rfl⟩⟩
    cases hrec : lookupAttempt fa ip with
    | none =>
      rcases cont false rfl with h | ⟨ah, secret, es, q, h1, h2, h3, h4, h5, h6⟩
      · exact Or.inl h
      · exact Or.inr ⟨ip, ah, secret, es, q, rfl, h1, h2, h3, h4, h5, h6⟩
    | some cv =>
      obtain ⟨cc, nx⟩ := cv
      by_cases hlt : tCheck < nx
      · rw [if_pos (decide_eq_true hlt)]
        exact Or.inl ⟨rfl, rfl⟩
      · rcases cont (decide (tCheck < nx)) (decide_eq_false hlt) with
          h | ⟨ah, secret, es, q, h1, h2, h3, h4, h5, h6⟩
        · exact Or.inl h
        · exact Or.inr ⟨ip, ah, secret, es, q, rfl, h1, h2, h3, h4, h5, h6⟩

/-- C5: denials caused by a missing `Authorization` header, a missing
server secret, a missing or malformed expiry value, or an expired secret
return with the failure map exactly unchanged — `_record_failed_attempt` is
not invoked and no record is created, incremented or removed. -/
theorem operational_denials_leave_failures_unchanged
    (tp : List String) (st : SecretStore) (req : Request) (fa : FailedAttempts)
    (tCheck tRecord : ℚ)
    (hcase :
      req.authorization = none ∨
      st.serverSecret = none ∨
      st.serverSecretExpiry = none ∨
      (∃ es, st.serverSecretExpiry = some es ∧ pyFloat? es = none) ∨
      (∃ es q, st.serverSecretExpiry = some es ∧ pyFloat? es = some q ∧
        tCheck > q)) :
    (is_client_token_valid tp st req fa tCheck tRecord).allowed = false ∧
    (is_client_token_valid tp st req fa tCheck tRecord).failures = fa := by
  rcases auth_outcome_cases tp st req fa tCheck tRecord with
    h | ⟨ip, ah, secret, es, q, hip, hauth, hsec, hexp, hpf, hgt, hcmp⟩
  · exact h
  · exfalso
    rcases hcase with hA | hS | hE | ⟨es2, hes2, hpf2⟩ | ⟨es2, q2, hes2, hpf2, hgt2⟩
    · rw [hA] at hauth
      exact Option.noConfusion hauth
    · rw [hS] at hsec
      exact Option.noConfusion hsec
    · rw [hE] at hexp
      exact Option.noConfusion hexp
    · rw [hes2] at hexp
      injection hexp with h2
      subst h2
      rw [hpf2] at hpf
      exact Option.noConfusion hpf
    · rw [hes2] at hexp
      injection hexp with h2
      subst h2
      rw [hpf2] at hpf
      injection hpf with h3
      subst h3
      exact hgt hgt2

/-- Witness for C5: a request with no `Authorization` header is denied and
the (empty) failure map is unchanged. -/
theorem operational_denials_leave_failures_unchanged_witness :
    (is_client_token_valid [] ⟨some "s", some "100"⟩
        ⟨some "8.8.8.8", none, none⟩ [] 50 50).allowed = false ∧
    (is_client_token_valid [] ⟨some "s", some "100"⟩
        ⟨some "8.8.8.8", none, none⟩ [] 50 50).failures = [] :=
  operational_denials_leave_failures_unchanged [] _ _ [] 50 50 (Or.inl rfl)

/-- Counterexample to C6 as stated: two throttled states of the same client
with different remaining waits (10 s and 1000 s at check time 50) produce
the identical fixed denial reason, so the reason returned to the caller
does not include the remaining wait time (that figure appears only in the
server log). -/
theorem throttle_reason_same_for_different_waits :
    (is_client_token_valid [] ⟨some "s", some "200"⟩
        ⟨some "9.9.9.9", none, some "Bearer s"⟩
        [("9.9.9.9", (3, 60))] 50 50).reason =
      some "Too many attempts. Please try again later." ∧
    (is_client_token_valid [] ⟨some "s", some "200"⟩
        ⟨some "9.9.9.9", none, some "Bearer s"⟩
        [("9.9.9.9", (3, 1050))] 50 50).reason =
      (is_client_token_valid [] ⟨some "s", some "200"⟩
        ⟨some "9.9.9.9", none, some "Bearer s"⟩
        [("9.9.9.9", (3, 60))] 50 50).reason := by decide

/-- C6 (amended): for a throttled client the denial carries the fixed
reason string `"Too many attempts. Please try again later."`; the remaining
wait time `nextAllowedTime - now` is written to the warning log only and is
not part of the returned decision. -/
theorem throttled_reason_is_fixed_string
    (tp : List String) (st : SecretStore) (req : Request) (fa : FailedAttempts)
    (tCheck tRecord : ℚ) (ip : String) (c : Nat) (next : ℚ)
    (hip : get_client_ip tp req = some ip)
    (hrec : lookupAttempt fa ip = some (c, next))
    (hth : tCheck < next) :
    (is_client_token_valid tp st req fa tCheck tRecord).reason =
      some "Too many attempts. Please try again later." := by
  unfold is_client_token_valid
  rw [hip]
  simp only [hrec]
  rw [if_pos (decide_eq_true hth)]

/-- Witness for C6 (amended) at a concrete throttled input. -/
theorem throttled_reason_is_fixed_string_witness :
    (is_client_token_valid [] ⟨some "s", some "200"⟩
        ⟨some "7.7.7.7", none, some "Bearer s"⟩
        [("7.7.7.7", (1, 90))] 10 10).reason =
      some "Too many attempts. Please try again later." :=
  throttled_reason_is_fixed_string [] _ _ _ 10 10 "7.7.7.7" 1 90
    (by decide) (by decide) (by norm_num)

/-- C7: `_reset_failed_attempts` removes the client's record when one
exists, is a no-op otherwise, and leaves every other client's record
untouched; the failure recorded immediately after a reset restarts the
backoff at count 1 with delay `min(0.5 * 2^1, 60) = 1` second. -/
theorem reset_success_restarts_backoff (fa : FailedAttempts) (ip : String)
    (now : ℚ) :
    ((lookupAttempt fa ip).isSome = true →
      lookupAttempt (reset_failed_attempts fa ip) ip = none) ∧
    (lookupAttempt fa ip = none → reset_failed_attempts fa ip = fa) ∧
    (∀ j, j ≠ ip →
      lookupAttempt (reset_failed_attempts fa ip) j = lookupAttempt fa j) ∧
    lookupAttempt
        (record_failed_attempt (reset_failed_attempts fa ip) ip now) ip =
      some (1, now + min ((1 / 2 : ℚ) * 2 ^ 1) 60) := by
  refine ⟨fun _ => lookupAttempt_reset_self fa ip, reset_of_lookup_none fa ip,
    fun j hj => lookupAttempt_reset_ne fa ip j hj, ?_⟩
  have h0 : countOf (reset_failed_attempts fa ip) ip = 0 := by
    simp [countOf, lookupAttempt_reset_self]
  rw [lookupAttempt_record_self, h0]
  rfl

/-- Witness for C7: resetting a client with five recorded failures removes
its record, and the next failure restarts at count 1 with a one-second
delay. -/
theorem reset_success_restarts_backoff_witness :
    lookupAttempt
        (reset_failed_attempts [("1.2.3.4", (5, 200))] "1.2.3.4") "1.2.3.4" =
      none ∧
    lookupAttempt
        (record_failed_attempt
          (reset_failed_attempts [("1.2.3.4", (5, 200))] "1.2.3.4")
          "1.2.3.4" 300) "1.2.3.4" =
      some (1, 300 + min ((1 / 2 : ℚ) * 2 ^ 1) 60) :=
  ⟨(reset_success_restarts_backoff [("1.2.3.4", (5, 200))] "1.2.3.4" 300).1
      (by decide),
    (reset_success_restarts_backoff [("1.2.3.4", (5, 200))] "1.2.3.4" 300).2.2.2⟩

lemma nextTimes_head_cons (fa : FailedAttempts) (ip : String) (t : ℚ)
    (ts : List ℚ) :
    (nextTimes fa ip (t :: ts)).head? =
      some (t + backoffDelay (countOf fa ip + 1)) := by
  rw [nextTimes_cons]
  rfl

lemma nextTimes_chain_aux (ip : String) :
    ∀ ts : List ℚ, ts.Chain' (· ≤ ·) →
      ∀ fa : FailedAttempts, (nextTimes fa ip ts).Chain' (· ≤ ·) := by
  intro ts
  induction ts with
  | nil =>
    intro _ fa
    simp [nextTimes]
  | cons t ts ih =>
    intro hts fa
    rw [nextTimes_cons, List.chain'_cons']
    refine ⟨?_, ih (List.chain'_cons'.mp hts).2 (record_failed_attempt fa ip t)⟩
    intro b hb
    cases ts with
    | nil => simp [nextTimes] at hb
    | cons t2 ts2 =>
      rw [nextTimes_head_cons] at hb
      have hb2 : t2 + backoffDelay
          (countOf (record_failed_attempt fa ip t) ip + 1) = b := by
        simpa using hb
      rw [← hb2, countOf_record]
      have ht : t ≤ t2 := (List.chain'_cons.mp hts).1
      exact add_le_add ht (backoffDelay_mono (countOf fa ip + 1))

/-- C8: across any run of consecutive `_record_failed_attempt` calls for
one client with no intervening reset, provided the clock values observed by
the successive calls are non-decreasing, the stored `next_allowed_time` is
monotonically non-decreasing. -/
theorem next_allowed_time_monotone (ip : String) (fa : FailedAttempts)
    (ts : List ℚ) (hts : ts.Chain' (· ≤ ·)) :
    (nextTimes fa ip ts).Chain' (· ≤ ·) :=
  nextTimes_chain_aux ip ts hts fa

/-- Witness for C8 on a concrete run of four failures with a repeated and
then advancing clock. -/
theorem next_allowed_time_monotone_witness :
    (nextTimes [] "1.2.3.4" [0, 2, 2, 30]).Chain' (· ≤ ·) :=
  next_allowed_time_monotone "1.2.3.4" [] [0, 2, 2, 30] (by
    refine List.chain'_cons.mpr ⟨by norm_num, ?_⟩
    refine List.chain'_cons.mpr ⟨le_refl _, ?_⟩
    refine List.chain'_cons.mpr ⟨by norm_num, ?_⟩
    exact List.chain'_singleton _)

/-- C10: the throttle check never mutates the failure map — a record whose
`next_allowed_time` lies in the past stays in place with its count intact,
and only a successful authentication removes records.  Consequently a
further failed attempt after the backoff window has elapsed increments the
stored count to `c + 1` (with delay `min(0.5 * 2^(c+1), 60)`) instead of
restarting at count 1; and on every denial, every client that had a record
before the call still has one after it. -/
theorem stale_record_kept_and_incremented
    (tp : List String) (st : SecretStore) (req : Request) (fa : FailedAttempts)
    (tCheck tRecord : ℚ) (ip : String) (c : Nat) (next : ℚ)
    (hip : get_client_ip tp req = some ip)
    (hrec : lookupAttempt fa ip = some (c, next))
    (hnt : next ≤ tCheck) :
    (∀ ah secret es q,
        req.authorization = some ah →
        st.serverSecret = some secret →
        st.serverSecretExpiry = some es →
        pyFloat? es = some q →
        tCheck ≤ q →
        extract_token ah ≠ secret →
        lookupAttempt
            (is_client_token_valid tp st req fa tCheck tRecord).failures ip =
          some (c + 1, tRecord + min ((1 / 2 : ℚ) * 2 ^ (c + 1)) 60)) ∧
    ((is_client_token_valid tp st req fa tCheck tRecord).allowed = false →
      ∀ j, (lookupAttempt fa j).isSome = true →
        (lookupAttempt
            (is_client_token_valid tp st req fa tCheck tRecord).failures
          j).isSome = true) := by
  constructor
  · intro ah secret es q hauth hsec hexp hpf hle hnes
    unfold is_client_token_valid
    rw [hip]
    simp only [hrec]
    rw [if_neg (by simpa using not_lt.mpr hnt)]
    simp only [hauth, hsec, hexp, hpf]
    rw [if_neg (not_lt.mpr hle), if_neg hnes]
    dsimp only
    rw [lookupAttempt_record_self]
    have hc : countOf fa ip = c := by simp [countOf, hrec]
    rw [hc]
    simp [backoffDelay]
  · intro hd j hj
    rcases auth_outcome_cases tp st req fa tCheck tRecord with
      ⟨_, hfa⟩ | ⟨ip2, ah, secret, es, q, hip2, hauth, hsec, hexp, hpf, hgt, hcmp⟩
    · rw [hfa]
      exact hj
    · rcases hcmp with ⟨_, heq⟩ | ⟨_, heq⟩
      · rw [heq] at hd
        exact absurd hd (by simp)
      · rw [heq]
        dsimp only
        by_cases hji : j = ip2
        · subst hji
          rw [lookupAttempt_record_self]
          rfl
        · rw [lookupAttempt_record_ne fa ip2 j tRecord hji]
          exact hj

/-- Witness for C10: a client with a stale record (count 2, window expired
at 100, check time 150) presents a wrong credential and its count advances
to 3. -/
theorem stale_record_kept_and_incremented_witness :
    lookupAttempt
        (is_client_token_valid [] ⟨some "s3cret", some "1000"⟩
            ⟨some "9.9.9.9", none, some "Bearer wrong"⟩
            [("9.9.9.9", (2, 100))] 150 150).failures "9.9.9.9" =
      some (3, 150 + min ((1 / 2 : ℚ) * 2 ^ 3) 60) :=
  (stale_record_kept_and_incremented [] _ _ _ 150 150 "9.9.9.9" 2 100
      (by decide) (by decide) (by norm_num)).1
    "Bearer wrong" "s3cret" "1000" 1000 rfl rfl rfl (by decide) (by norm_num)
    (by decide)
